import Mathlib

/-!
Shallow embedding of the A/B experiment engine in
src/chatbot-app/backend/data/src/services/ab_testing_service.py.

Floats are modelled as exact rationals; the math-library functions
sqrt and tanh used by the statistical routines are passed in as
function parameters, with the properties the proofs need (sqrt 0 = 0,
tanh 0 = 0) taken as hypotheses. Database tables and Redis hashes are
modelled as association lists threaded through the operations.
-/

namespace ABTesting

/-- One experiment arm (dataclass ExperimentVariant): only the fields the
embedded algorithms read are kept. -/
structure ExperimentVariant where
  name : String
  weight : ℚ
  deriving DecidableEq

/-- One declared metric (dataclass ExperimentMetric): name and type string. -/
structure ExperimentMetric where
  name : String
  type : String
  deriving DecidableEq

/-- The Redis hash for one (experiment, variant, metric) key: fields
sum, count and squared_sum, exactly as initialized by
_initialize_experiment_data. -/
structure MetricCounters where
  sum : ℚ
  count : ℕ
  squared_sum : ℚ
  deriving DecidableEq

/-- The all-zero counters written at initialization. -/
def MetricCounters.zero : MetricCounters := ⟨0, 0, 0⟩

/-- Per-metric counter update performed by track_event for one event of
value v: the numerical and rate branches update sum, count and squared_sum;
the binary branch updates only sum and count; the categorical branch keeps
a separate per-category hash and leaves these counters alone. -/
def trackEventUpdate (metric_type : String) (c : MetricCounters) (v : ℚ) : MetricCounters :=
  if metric_type = "numerical" ∨ metric_type = "rate" then
    { sum := c.sum + v, count := c.count + 1, squared_sum := c.squared_sum + v ^ 2 }
  else if metric_type = "binary" then
    { sum := c.sum + v, count := c.count + 1, squared_sum := c.squared_sum }
  else c

/-- _calculate_metric_value: the materialized point value of the counters,
0.0 when count is 0, sum/count for numerical, binary and rate metrics, and
the raw count otherwise. -/
def calculateMetricValue (c : MetricCounters) (metric_type : String) : ℚ :=
  if c.count = 0 then 0
  else if metric_type = "numerical" then c.sum / c.count
  else if metric_type = "binary" then c.sum / c.count
  else if metric_type = "rate" then c.sum / c.count
  else (c.count : ℚ)

/-- The sample variance the spec derives from the retained counters:
squared_sum / count minus the square of the mean. -/
def sampleVariance (c : MetricCounters) : ℚ :=
  c.squared_sum / c.count - (c.sum / c.count) ^ 2

/-- Fold a list of event values into fresh counters through the numerical
branch of track_event. -/
def recordValues (vs : List ℚ) : MetricCounters :=
  vs.foldl (trackEventUpdate "numerical") MetricCounters.zero

/-- _t_cdf: the simplified t CDF used by the code,
0.5 + 0.5 * tanh (x / sqrt (df + 3)). -/
def tCdf (sqrtFn tanhFn : ℚ → ℚ) (x df : ℚ) : ℚ :=
  1 / 2 + 1 / 2 * tanhFn (x / sqrtFn (df + 3))

/-- The standard error computed inside _calculate_t_test: a pooled standard
deviation built from the literal zeros in the source,
sqrt (((n1 - 1) * 0 + (n2 - 1) * 0) / (n1 + n2 - 2)), multiplied by
sqrt (1/n1 + 1/n2). -/
def tTestStandardError (sqrtFn : ℚ → ℚ) (n1 n2 : ℕ) : ℚ :=
  let pooled_std := sqrtFn ((((n1 : ℚ) - 1) * 0 + ((n2 : ℚ) - 1) * 0) / ((n1 : ℚ) + (n2 : ℚ) - 2))
  pooled_std * sqrtFn (1 / (n1 : ℚ) + 1 / (n2 : ℚ))

/-- _calculate_t_test(mean1, n1, mean2, n2): returns (t_stat, p_value).
Note the function receives only the two means and sample sizes; no variance
reaches it. -/
def calculateTTest (sqrtFn tanhFn : ℚ → ℚ) (mean1 : ℚ) (n1 : ℕ) (mean2 : ℚ) (n2 : ℕ) :
    ℚ × ℚ :=
  let se := tTestStandardError sqrtFn n1 n2
  let t_stat := if se > 0 then (mean1 - mean2) / se else 0
  let p_value := 2 * (1 - tCdf sqrtFn tanhFn |t_stat| ((n1 : ℚ) + (n2 : ℚ) - 2))
  (t_stat, p_value)

/-- The square of the Welch standard error mandated by the spec,
var1/n1 + var2/n2 (stated squared so no square root is needed: the real
square root of a positive rational is positive). -/
def welchStandardErrorSq (var1 : ℚ) (n1 : ℕ) (var2 : ℚ) (n2 : ℕ) : ℚ :=
  var1 / (n1 : ℚ) + var2 / (n2 : ℚ)

/-- Sum of the configured weights: the final value of current_sum in the
accumulation loop of _select_variant_by_weight. -/
def totalWeight (variants : List ExperimentVariant) : ℚ :=
  (variants.map (·.weight)).sum

/-- Running cumulative sums of the weights starting from acc: the
cumulative_weights list built by _select_variant_by_weight. -/
def cumulativeWeights : List ℚ → ℚ → List ℚ
  | [], _ => []
  | w :: ws, acc => (acc + w) :: cumulativeWeights ws (acc + w)

/-- The selection loop of _select_variant_by_weight: the name paired with
the first cumulative weight cw such that the draw is ≤ cw. -/
def selectLoop : List (String × ℚ) → ℚ → Option String
  | [], _ => none
  | (n, cw) :: rest, r => if r ≤ cw then some n else selectLoop rest r

/-- _select_variant_by_weight. rnd stands for the random.random() output in
[0,1); the code multiplies it by the actual total weight, scans the
cumulative ladder, and falls back to the last variant when no rung matched.
(On an empty variant list the Python raises IndexError from both fallbacks;
the embedding returns "" there, and every claim about this function assumes
a non-empty list.) -/
def selectVariantByWeight (variants : List ExperimentVariant) (rnd : ℚ) : String :=
  let weights := variants.map (·.weight)
  let current_sum := weights.sum
  let cumulative_weights := cumulativeWeights weights 0
  let random_value := rnd * current_sum
  match selectLoop ((variants.map (·.name)).zip cumulative_weights) random_value with
  | some n => n
  | none => (variants.map (·.name)).getLastD ""

/-- The cumulative-ladder selection in the words of the spec: walking the
variants in their declared order with acc the cumulative weight of the
variants already passed, pick the first variant whose cumulative weight is
≥ the draw (ties broken by order). -/
def ladderSelectFrom : List ExperimentVariant → ℚ → ℚ → Option String
  | [], _, _ => none
  | v :: rest, acc, draw =>
      if acc + v.weight ≥ draw then some v.name else ladderSelectFrom rest (acc + v.weight) draw

/-- Ladder selection started at cumulative weight 0. -/
def ladderSelect (variants : List ExperimentVariant) (draw : ℚ) : Option String :=
  ladderSelectFrom variants 0 draw

/-- One row of the ab_assignments table; completed_at IS NULL is modelled
as none. -/
structure Assignment where
  experiment_id : String
  user_id : String
  variant_name : String
  completed_at : Option ℕ
  deriving DecidableEq

/-- One row of the ab_experiments table (the fields the embedded operations
read). -/
structure ExperimentRow where
  id : String
  status : String
  variants : List ExperimentVariant
  metrics : List ExperimentMetric
  deriving DecidableEq

/-- Database and metric-store state threaded through the service calls:
the ab_experiments and ab_assignments tables and the Redis hashes keyed by
(experiment_id, variant_name, metric_name). -/
structure ServiceState where
  experiments : List ExperimentRow
  assignments : List Assignment
  metricStore : List ((String × String × String) × MetricCounters)
  deriving DecidableEq

/-- _get_experiment: SELECT by id (first matching row). -/
def getExperiment (st : ServiceState) (eid : String) : Option ExperimentRow :=
  st.experiments.find? (fun r => r.id == eid)

/-- _get_user_assignment: first ab_assignments row for (experiment, user)
with completed_at IS NULL. -/
def getUserAssignment (assigns : List Assignment) (eid uid : String) : Option Assignment :=
  assigns.find? (fun a => a.experiment_id == eid && a.user_id == uid && a.completed_at == none)

/-- _record_assignment: a plain INSERT appending one row, with no ON
CONFLICT clause and no uniqueness check. -/
def recordAssignment (st : ServiceState) (eid uid vname : String) : ServiceState :=
  { st with assignments := st.assignments ++ [⟨eid, uid, vname, none⟩] }

/-- assign_user_to_variant with the weighted draw passed explicitly:
requires the experiment to exist and be running, returns an existing open
assignment unchanged, and otherwise selects by weight and records the new
assignment. -/
def assignUserToVariant (st : ServiceState) (eid uid : String) (rnd : ℚ) :
    Except String (String × ServiceState) :=
  match getExperiment st eid with
  | none => .error "Experiment not found"
  | some exp =>
    if exp.status ≠ "running" then .error "Experiment is not running"
    else
      match getUserAssignment st.assignments eid uid with
      | some a => .ok (a.variant_name, st)
      | none =>
        let variant_name := selectVariantByWeight exp.variants rnd
        .ok (variant_name, recordAssignment st eid uid variant_name)

/-- Column sets carrying a uniqueness constraint in the ab_assignments DDL
of _ensure_tables_exist: only the PRIMARY KEY on id. -/
def abAssignmentsUniqueKeys : List (List String) := [["id"]]

/-- Lookup in the metric store by (experiment_id, variant_name,
metric_name): first matching key. -/
def lookupCounters (store : List ((String × String × String) × MetricCounters))
    (k : String × String × String) : Option MetricCounters :=
  (store.find? (fun p => p.1 == k)).map (·.2)

/-- _validate_experiment_data restricted to the data-dependent checks: at
least two variants, the weights summing to 1.0 within 0.01, and at least
one metric. (Required-field presence is structural in the embedding.) -/
def validateExperimentData (variants : List ExperimentVariant)
    (metrics : List ExperimentMetric) : Bool :=
  decide (2 ≤ variants.length) && decide (|totalWeight variants - 1| ≤ 1 / 100)
    && decide (metrics ≠ [])

/-- The zero counter entries written by _initialize_experiment_data: one
per declared (metric, variant) pair, metric outer loop, variant inner. -/
def initEntries (eid : String) (variants : List ExperimentVariant)
    (metrics : List ExperimentMetric) :
    List ((String × String × String) × MetricCounters) :=
  match metrics with
  | [] => []
  | m :: ms =>
      variants.map (fun v => ((eid, v.name, m.name), MetricCounters.zero))
        ++ initEntries eid variants ms

/-- _initialize_experiment_data: reads the experiment row back and writes a
zeroed counter hash for every (variant, metric) pair. -/
def initializeExperimentData (st : ServiceState) (eid : String) : ServiceState :=
  match getExperiment st eid with
  | none => st
  | some exp =>
      { st with metricStore := st.metricStore ++ initEntries eid exp.variants exp.metrics }

/-- create_experiment: validates, inserts the row with status draft, and
immediately calls _initialize_experiment_data (before any start call). -/
def createExperiment (st : ServiceState) (id : String)
    (variants : List ExperimentVariant) (metrics : List ExperimentMetric) :
    Except String ServiceState :=
  if ¬ validateExperimentData variants metrics then .error "Invalid experiment data"
  else
    let row : ExperimentRow := ⟨id, "draft", variants, metrics⟩
    let st1 := { st with experiments := st.experiments ++ [row] }
    .ok (initializeExperimentData st1 id)

/-- start_experiment: requires the experiment to exist in draft, then only
updates its status to running (it performs no metric-store write). -/
def startExperiment (st : ServiceState) (eid : String) : Except String ServiceState :=
  match getExperiment st eid with
  | none => .error "Experiment not found"
  | some exp =>
    if exp.status ≠ "draft" then .error "Experiment is not in draft state"
    else
      .ok { st with experiments :=
        st.experiments.map (fun r => if r.id == eid then { r with status := "running" } else r) }

/-- complete_experiment: delegates to _complete_experiment, which runs an
unconditional UPDATE to status completed with no state check, so the call
always succeeds. -/
def completeExperiment (st : ServiceState) (eid : String) : Except String ServiceState :=
  .ok { st with experiments :=
    st.experiments.map (fun r => if r.id == eid then { r with status := "completed" } else r) }

/-- One formatted result entry as grouped by get_experiment_results: its
metric_value and statistical_significance flag. -/
structure ResultEntry where
  value : ℚ
  significant : Bool
  deriving DecidableEq

/-- _calculate_improvement over the association list it is handed (a dict
in insertion order): control value = value of the first key, best value =
maximum value over all keys (Python max over the keys by value), 0 when the
control value is 0, and 0 on an empty dict (the IndexError is caught). -/
def calculateImprovement (metrics : List (String × ℚ)) : ℚ :=
  match metrics with
  | [] => 0
  | (_, v0) :: rest =>
    let control_value := v0
    let best_value := rest.foldl (fun acc p => if acc < p.2 then p.2 else acc) v0
    if control_value = 0 then 0 else ((best_value - control_value) / control_value) * 100

/-- The findings one variant contributes in _generate_experiment_summary:
one entry (metric, variant, improvement) per significant metric, where the
improvement is computed by passing that same variant's own metric dict to
_calculate_improvement. -/
def findingsForVariant (vname : String) (metrics : List (String × ResultEntry)) :
    List (String × String × ℚ) :=
  (metrics.filter (fun p => p.2.significant)).map
    (fun p => (p.1, vname, calculateImprovement (metrics.map (fun q => (q.1, q.2.value)))))

/-- significant_findings assembled by _generate_experiment_summary over the
grouped results (variant → metric → entry). -/
def significantFindings : List (String × List (String × ResultEntry)) →
    List (String × String × ℚ)
  | [] => []
  | (vname, metrics) :: rest => findingsForVariant vname metrics ++ significantFindings rest

/-- The improvement in the words of the spec, over the variant values in
the declared variant order: control = value of the first declared variant,
best = maximum value, improvement = (best - control) / control * 100, and
0 when the control value is 0. -/
def specImprovement (variantValues : List ℚ) : ℚ :=
  match variantValues with
  | [] => 0
  | c :: rest =>
    let best := rest.foldl (fun acc v => if acc < v then v else acc) c
    if c = 0 then 0 else ((best - c) / c) * 100

/-! ## Concrete fixtures used by witnesses and counterexamples -/

/-- Two variants A and B with weight 1/2 each. -/
def sampleVariants : List ExperimentVariant := [⟨"A", 1/2⟩, ⟨"B", 1/2⟩]

/-- One numerical metric named m. -/
def sampleMetrics : List ExperimentMetric := [⟨"m", "numerical"⟩]

/-- The empty database and metric store. -/
def emptyState : ServiceState := ⟨[], [], []⟩

/-- A running experiment row with the sample variants and metric. -/
def runningExperimentRow : ExperimentRow := ⟨"e", "running", sampleVariants, sampleMetrics⟩

/-- A draft experiment row with the sample variants and metric. -/
def draftExperimentRow : ExperimentRow := ⟨"e", "draft", sampleVariants, sampleMetrics⟩

/-- State holding the running experiment and one open assignment of user u
to variant A. -/
def assignedState : ServiceState := ⟨[runningExperimentRow], [⟨"e", "u", "A", none⟩], []⟩

/-- State holding only the running experiment, with no assignments. -/
def unassignedState : ServiceState := ⟨[runningExperimentRow], [], []⟩

/-! ## Theorems -/

/-- C1: the claim says the t-statistic uses a per-variant sample variance
(squared_sum/count − mean², clamped at 0) and a standard error
sqrt(var1/n1 + var2/n2) that is nonzero whenever the retained squared sums
give positive variance. The code refutes this: _calculate_t_test builds its
pooled standard deviation from literal zeros, so for every input (any sqrt
with sqrt 0 = 0 and any tanh with tanh 0 = 0) the standard error is 0, the
t-statistic is 0, and the p-value is 1; the spec-mandated squared standard
error at positive variance (var = 4, n = 100 per arm) is positive instead. -/
theorem c1_t_test_zero_standard_error (sqrtFn tanhFn : ℚ → ℚ)
    (hsqrt : sqrtFn 0 = 0) (htanh : tanhFn 0 = 0)
    (mean1 mean2 : ℚ) (n1 n2 : ℕ) :
    tTestStandardError sqrtFn n1 n2 = 0 ∧
    calculateTTest sqrtFn tanhFn mean1 n1 mean2 n2 = (0, 1) ∧
    0 < welchStandardErrorSq 4 100 4 100 := by
  have hse : tTestStandardError sqrtFn n1 n2 = 0 := by
    simp [tTestStandardError, hsqrt]
  refine ⟨hse, ?_, by norm_num [welchStandardErrorSq]⟩
  simp [calculateTTest, hse, tCdf, htanh]
  norm_num

/-- Witness for C1 at sqrt = tanh = id, means 10 and 5, both arms of
size 100. -/
theorem c1_t_test_zero_standard_error_witness :
    tTestStandardError id 100 100 = 0 ∧
    calculateTTest id id 10 100 5 100 = (0, 1) ∧
    0 < welchStandardErrorSq 4 100 4 100 :=
  c1_t_test_zero_standard_error id id rfl rfl 10 5 100 100

/-- C2: for numerical, binary and rate metrics the materialized point value
is sum/count and 0 when count is 0; recording the events [1,2,3,4,5]
through track_event leaves sum = 15, count = 5, squared_sum = 55, so the
materialized mean is 3 with sample size 5 and the derived variance
squared_sum/count − mean² is 2. -/
theorem c2_materialized_value :
    (∀ c : MetricCounters,
      calculateMetricValue c "numerical" = if c.count = 0 then 0 else c.sum / c.count) ∧
    (∀ c : MetricCounters,
      calculateMetricValue c "binary" = if c.count = 0 then 0 else c.sum / c.count) ∧
    (∀ c : MetricCounters,
      calculateMetricValue c "rate" = if c.count = 0 then 0 else c.sum / c.count) ∧
    recordValues [1, 2, 3, 4, 5] = ⟨15, 5, 55⟩ ∧
    calculateMetricValue (recordValues [1, 2, 3, 4, 5]) "numerical" = 3 ∧
    (recordValues [1, 2, 3, 4, 5]).count = 5 ∧
    sampleVariance (recordValues [1, 2, 3, 4, 5]) = 2 := by
  refine ⟨fun c => rfl, fun c => rfl, fun c => rfl, ?_, ?_, ?_, ?_⟩ <;>
    norm_num [recordValues, trackEventUpdate, MetricCounters.zero, MetricCounters.mk.injEq,
      calculateMetricValue, sampleVariance]

/-- C9 counterexample: the claim says a binary event with value v updates
squared_sum by v² like a numerical event. At v = 1 on zero counters the
binary branch of track_event leaves squared_sum at 0, unlike the numerical
branch, so the update is not the claimed one. -/
theorem c9_counterexample :
    trackEventUpdate "binary" MetricCounters.zero 1 ≠
      { sum := MetricCounters.zero.sum + 1, count := MetricCounters.zero.count + 1,
        squared_sum := MetricCounters.zero.squared_sum + 1 ^ 2 } ∧
    (trackEventUpdate "binary" MetricCounters.zero 1).squared_sum = 0 ∧
    (trackEventUpdate "numerical" MetricCounters.zero 1).squared_sum = 1 := by
  have e1 : trackEventUpdate "binary" MetricCounters.zero 1
      = { sum := 0 + 1, count := 0 + 1, squared_sum := (0 : ℚ) } := rfl
  have e2 : trackEventUpdate "numerical" MetricCounters.zero 1
      = { sum := 0 + 1, count := 0 + 1, squared_sum := 0 + 1 ^ 2 } := rfl
  rw [e1, e2]
  norm_num [MetricCounters.zero, MetricCounters.mk.injEq]

/-- C9 amended: a tracked binary event with value v changes sum and count
exactly as a numerical event does (sum += v, count += 1) but leaves
squared_sum unchanged. -/
theorem c9_binary_update (c : MetricCounters) (v : ℚ) :
    (trackEventUpdate "binary" c v).sum = (trackEventUpdate "numerical" c v).sum ∧
    (trackEventUpdate "binary" c v).count = (trackEventUpdate "numerical" c v).count ∧
    (trackEventUpdate "binary" c v).squared_sum = c.squared_sum :=
  ⟨rfl, rfl, rfl⟩

/-- The selection loop over the names zipped with the cumulative weights is
exactly the ladder walk of the spec. -/
lemma selectLoop_zip_cumulative (vs : List ExperimentVariant) :
    ∀ acc draw : ℚ,
      selectLoop ((vs.map (·.name)).zip (cumulativeWeights (vs.map (·.weight)) acc)) draw
        = ladderSelectFrom vs acc draw := by
  induction vs with
  | nil => intro acc draw; rfl
  | cons v rest ih =>
    intro acc draw
    have h0 : selectLoop (((v :: rest).map (·.name)).zip
        (cumulativeWeights ((v :: rest).map (·.weight)) acc)) draw
        = if draw ≤ acc + v.weight then some v.name
          else selectLoop ((rest.map (·.name)).zip
            (cumulativeWeights (rest.map (·.weight)) (acc + v.weight))) draw := rfl
    rw [h0, ih]
    simp only [ladderSelectFrom, ge_iff_le]

/-- When the draw is at most the total cumulative weight, the ladder walk
finds a rung. -/
lemma ladderSelectFrom_isSome (vs : List ExperimentVariant) :
    ∀ acc draw : ℚ, vs ≠ [] → draw ≤ acc + (vs.map (·.weight)).sum →
      (ladderSelectFrom vs acc draw).isSome := by
  induction vs with
  | nil => intro acc draw h _; exact absurd rfl h
  | cons v rest ih =>
    intro acc draw _ hle
    by_cases h : draw ≤ acc + v.weight
    · simp [ladderSelectFrom, h]
    · have hrest : rest ≠ [] := by
        rintro rfl
        exact h (by simpa using hle)
      have hle' : draw ≤ acc + v.weight + (rest.map (·.weight)).sum := by
        simpa [add_assoc] using hle
      simpa [ladderSelectFrom, h] using ih (acc + v.weight) draw hrest hle'

/-- A name returned by the selection loop is the first component of one of
its pairs. -/
lemma selectLoop_mem (prs : List (String × ℚ)) :
    ∀ (draw : ℚ) (n : String), selectLoop prs draw = some n → n ∈ prs.map Prod.fst := by
  induction prs with
  | nil => intro draw n h; cases h
  | cons p rest ih =>
    intro draw n h
    obtain ⟨nm, cw⟩ := p
    by_cases hc : draw ≤ cw
    · simp only [selectLoop, if_pos hc, Option.some.injEq] at h
      simp [h]
    · simp only [selectLoop, if_neg hc] at h
      simpa using Or.inr (ih draw n h)

/-- The last element with a default is a member of a non-empty list. -/
lemma mem_getLastD (l : List String) (d : String) (h : l ≠ []) : l.getLastD d ∈ l := by
  induction l generalizing d with
  | nil => exact absurd rfl h
  | cons a t ih =>
    cases t with
    | nil => simp [List.getLastD]
    | cons b m =>
      have h1 := ih (d := a) (by simp)
      exact List.mem_cons_of_mem a h1

/-- The cumulative-weight list is as long as the weight list. -/
lemma cumulativeWeights_length (ws : List ℚ) :
    ∀ acc : ℚ, (cumulativeWeights ws acc).length = ws.length := by
  induction ws with
  | nil => intro acc; rfl
  | cons w t ih => intro acc; simp [cumulativeWeights, ih]

/-- C5: for a non-empty variant list and any draw in [0, total_weight),
where total_weight is the actual sum of the configured weights,
_select_variant_by_weight (fed the corresponding random.random() output
draw / total_weight) returns exactly the first variant, in declared order,
whose cumulative weight is ≥ the draw. -/
theorem c5_cumulative_ladder (variants : List ExperimentVariant) (draw : ℚ)
    (hne : variants ≠ []) (h0 : 0 ≤ draw) (hlt : draw < totalWeight variants) :
    ladderSelect variants draw
      = some (selectVariantByWeight variants (draw / totalWeight variants)) := by
  have htot : 0 < totalWeight variants := lt_of_le_of_lt h0 hlt
  have hsome := ladderSelectFrom_isSome variants 0 draw hne
    (by simpa [totalWeight] using hlt.le)
  obtain ⟨n, hn⟩ := Option.isSome_iff_exists.mp hsome
  have hmul : draw / totalWeight variants * (variants.map (·.weight)).sum = draw :=
    div_mul_cancel₀ draw (ne_of_gt htot)
  have hsel : selectVariantByWeight variants (draw / totalWeight variants) = n := by
    simp only [selectVariantByWeight, hmul, selectLoop_zip_cumulative, hn]
  rw [hsel]
  exact hn

/-- Witness for C5: variants A and B with weight 1/2 each and draw 3/4
select B, the first variant whose cumulative weight 1 is ≥ 3/4. -/
theorem c5_cumulative_ladder_witness :
    ladderSelect [⟨"A", 1/2⟩, ⟨"B", 1/2⟩] (3/4)
      = some (selectVariantByWeight [⟨"A", 1/2⟩, ⟨"B", 1/2⟩]
          (3/4 / totalWeight [⟨"A", 1/2⟩, ⟨"B", 1/2⟩])) :=
  c5_cumulative_ladder _ _ (by simp) (by norm_num) (by norm_num [totalWeight])

/-- C10: on every non-empty variant list with non-negative weights,
_select_variant_by_weight is total and returns the name of one of the given
variants: the loop returns a zipped name and the no-match fallback returns
the last variant, so no variant name is fabricated. -/
theorem c10_selection_closed (variants : List ExperimentVariant) (hne : variants ≠ [])
    (hw : ∀ v ∈ variants, 0 ≤ v.weight) (rnd : ℚ) :
    selectVariantByWeight variants rnd ∈ variants.map (·.name) := by
  simp only [selectVariantByWeight]
  cases hsel : selectLoop
      ((variants.map (·.name)).zip (cumulativeWeights (variants.map (·.weight)) 0))
      (rnd * (variants.map (·.weight)).sum) with
  | some n =>
    have hmem := selectLoop_mem _ _ _ hsel
    have hfst : ((variants.map (·.name)).zip
        (cumulativeWeights (variants.map (·.weight)) 0)).map Prod.fst
          = variants.map (·.name) := by
      apply List.map_fst_zip
      simp [cumulativeWeights_length]
    rw [hfst] at hmem
    exact hmem
  | none =>
    exact mem_getLastD _ _ (by simpa using hne)

/-- Witness for C10: the draw 3/4 on variants A and B with weight 1/2 each
returns a name from the list. -/
theorem c10_selection_closed_witness :
    selectVariantByWeight [⟨"A", 1/2⟩, ⟨"B", 1/2⟩] (3/4)
      ∈ ([⟨"A", 1/2⟩, ⟨"B", 1/2⟩] : List ExperimentVariant).map (·.name) :=
  c10_selection_closed _ (by simp) (by norm_num) (3/4)

/-- C3: assignment is idempotent. For any state whose experiment exists and
is running and in which (experiment, user) already has an open assignment
(completed_at null), assign_user_to_variant returns that assignment's
variant and leaves the state unchanged (no new Assignment row); since the
draw is universally quantified and the state is returned unchanged,
repeated sequential calls keep returning the same variant. -/
theorem c3_assignment_idempotent (st : ServiceState) (eid uid : String) (rnd : ℚ)
    (exp : ExperimentRow) (a : Assignment)
    (hexp : getExperiment st eid = some exp) (hrun : exp.status = "running")
    (ha : getUserAssignment st.assignments eid uid = some a) :
    assignUserToVariant st eid uid rnd = Except.ok (a.variant_name, st) := by
  simp [assignUserToVariant, hexp, hrun, ha]

/-- Witness for C3: user u already assigned to A in the running experiment;
a further call with draw 3/4 (which would select B if it drew fresh)
returns A and the unchanged state. -/
theorem c3_assignment_idempotent_witness :
    assignUserToVariant assignedState "e" "u" (3/4)
      = Except.ok ("A", assignedState) :=
  c3_assignment_idempotent assignedState "e" "u" (3/4) runningExperimentRow
    ⟨"e", "u", "A", none⟩ rfl rfl rfl

/-- C4: the claim says the persistence step enforces a uniqueness
constraint on (experiment_id, user_id) so that concurrent first-time
assigns return one variant and produce exactly one Assignment row. The
code refutes this: the ab_assignments DDL carries only the id primary key,
and in the racy schedule where both concurrent calls read before either
writes (both reads see no assignment, as _get_user_assignment returns none
on the empty table), the two plain INSERTs of _record_assignment leave two
Assignment rows for the same (experiment, user) carrying different
variants (draw 0 selects A, draw 3/4 selects B). -/
theorem c4_duplicate_assignment_race :
    ["experiment_id", "user_id"] ∉ abAssignmentsUniqueKeys ∧
    getUserAssignment unassignedState.assignments "e" "u" = none ∧
    selectVariantByWeight sampleVariants 0 = "A" ∧
    selectVariantByWeight sampleVariants (3/4) = "B" ∧
    ((recordAssignment (recordAssignment unassignedState "e" "u" "A") "e" "u" "B").assignments.filter
        (fun a => a.experiment_id == "e" && a.user_id == "u")).length = 2 ∧
    ("A" : String) ≠ "B" := by
  refine ⟨by decide, rfl, ?_, ?_, rfl, by decide⟩ <;>
    norm_num [sampleVariants, selectVariantByWeight, cumulativeWeights, selectLoop]

/-- C8: the claim says the improvement reported for a significant finding
is (best − control) / control × 100 over the variant values with control
the first variant of the declared, ordered variant list. The code refutes
this: _generate_experiment_summary hands _calculate_improvement the metric
dict of the single variant the finding belongs to, so with declared
variants [B, A], B (the control) at value 2 and A at value 4 on metric m
with A significant, the reported improvement is 0 while the claimed
formula gives 100; had the per-variant values been passed in declared
order, the same code formula would give 100. -/
theorem c8_improvement_divergence :
    significantFindings [("B", [("m", ⟨2, false⟩)]), ("A", [("m", ⟨4, true⟩)])]
      = [("m", "A", 0)] ∧
    specImprovement [2, 4] = 100 ∧
    calculateImprovement [("B", 2), ("A", 4)] = 100 ∧
    (0 : ℚ) ≠ 100 := by
  refine ⟨?_, ?_, ?_, by norm_num⟩ <;>
    norm_num [significantFindings, findingsForVariant, calculateImprovement, specImprovement]

/-- Searching an appended list when the first part has no match. -/
lemma find?_append_none {α : Type} (p : α → Bool) (l1 l2 : List α)
    (h : l1.find? p = none) : (l1 ++ l2).find? p = l2.find? p := by
  induction l1 with
  | nil => rfl
  | cons a t ih =>
    by_cases hp : p a
    · simp [List.find?_cons, hp] at h
    · simp only [List.find?_cons, hp, cond_false] at h
      simpa [List.find?_cons, hp] using ih h

/-- Every declared (variant, metric) pair has its zero entry in the
initialization list. -/
lemma mem_initEntries (eid : String) (variants : List ExperimentVariant) :
    ∀ (metrics : List ExperimentMetric), ∀ v ∈ variants, ∀ m ∈ metrics,
      ((eid, v.name, m.name), MetricCounters.zero) ∈ initEntries eid variants metrics := by
  intro metrics
  induction metrics with
  | nil => intro v _ m hm; cases hm
  | cons m0 ms ih =>
    intro v hv m hm
    simp only [initEntries, List.mem_append]
    rcases List.mem_cons.mp hm with h | h
    · subst h
      exact Or.inl (List.mem_map_of_mem _ hv)
    · exact Or.inr (ih v hv m h)

/-- C6 counterexample: the claim says a successful create leaves no
per-experiment counter key in the Metric Store before start. Creating the
sample experiment on the empty state succeeds and the key
(e, A, m) is already present with zero counters, because create_experiment
itself calls _initialize_experiment_data. -/
theorem c6_counterexample :
    ∃ st' : ServiceState,
      createExperiment emptyState "e" sampleVariants sampleMetrics = Except.ok st' ∧
      lookupCounters st'.metricStore ("e", "A", "m") = some MetricCounters.zero := by
  have hval : validateExperimentData sampleVariants sampleMetrics = true := by
    simp [validateExperimentData, sampleVariants, sampleMetrics, totalWeight]
    norm_num
  refine ⟨initializeExperimentData ⟨[⟨"e", "draft", sampleVariants, sampleMetrics⟩], [], []⟩ "e",
    ?_, rfl⟩
  simp [createExperiment, hval, emptyState]

/-- C6 amended: create(spec), when it succeeds, persists the experiment
with status draft and already initializes the Metric Store counters to
zero for every declared (variant, metric) pair; start performs no Metric
Store write of its own. -/
theorem c6_create_initializes_counters (st : ServiceState) (id : String)
    (variants : List ExperimentVariant) (metrics : List ExperimentMetric)
    (st' : ServiceState)
    (hid : getExperiment st id = none)
    (h : createExperiment st id variants metrics = Except.ok st') :
    (∃ exp, getExperiment st' id = some exp ∧ exp.status = "draft") ∧
    (∀ v ∈ variants, ∀ m ∈ metrics,
      ((id, v.name, m.name), MetricCounters.zero) ∈ st'.metricStore) ∧
    (∀ st'', startExperiment st' id = Except.ok st'' → st''.metricStore = st'.metricStore) := by
  by_cases hval : validateExperimentData variants metrics
  · have hfind : (st.experiments
        ++ [({ id := id, status := "draft", variants := variants, metrics := metrics }
            : ExperimentRow)]).find? (fun r => r.id == id)
        = some { id := id, status := "draft", variants := variants, metrics := metrics } := by
      rw [find?_append_none _ _ _ hid]
      simp [List.find?_cons]
    have hrow1 : getExperiment
        { st with experiments := st.experiments
            ++ [{ id := id, status := "draft", variants := variants, metrics := metrics }] } id
        = some { id := id, status := "draft", variants := variants, metrics := metrics } := hfind
    have hst' : st' = { st with
        experiments := st.experiments
          ++ [{ id := id, status := "draft", variants := variants, metrics := metrics }],
        metricStore := st.metricStore ++ initEntries id variants metrics } := by
      have h2 := h
      simp only [createExperiment, hval, not_true_eq_false, if_false,
        initializeExperimentData, hrow1, Except.ok.injEq] at h2
      exact h2.symm
    subst hst'
    have hrow2 : getExperiment { st with
        experiments := st.experiments
          ++ [{ id := id, status := "draft", variants := variants, metrics := metrics }],
        metricStore := st.metricStore ++ initEntries id variants metrics } id
        = some { id := id, status := "draft", variants := variants, metrics := metrics } := hfind
    refine ⟨⟨{ id := id, status := "draft", variants := variants, metrics := metrics },
      hrow2, rfl⟩, ?_, ?_⟩
    · intro v hv m hm
      exact List.mem_append.mpr (Or.inr (mem_initEntries id variants metrics v hv m hm))
    · intro st'' hs
      simp only [startExperiment, hrow2, ne_eq, not_true_eq_false, if_false,
        Except.ok.injEq] at hs
      rw [← hs]
  · simp [createExperiment, hval] at h

/-- Witness for C6 at the sample experiment created on the empty state. -/
theorem c6_create_initializes_counters_witness :
    (∃ exp, getExperiment (initializeExperimentData
        ⟨[⟨"e", "draft", sampleVariants, sampleMetrics⟩], [], []⟩ "e") "e" = some exp ∧
      exp.status = "draft") ∧
    (∀ v ∈ sampleVariants, ∀ m ∈ sampleMetrics,
      (("e", v.name, m.name), MetricCounters.zero) ∈ (initializeExperimentData
        ⟨[⟨"e", "draft", sampleVariants, sampleMetrics⟩], [], []⟩ "e").metricStore) ∧
    (∀ st'', startExperiment (initializeExperimentData
        ⟨[⟨"e", "draft", sampleVariants, sampleMetrics⟩], [], []⟩ "e") "e" = Except.ok st'' →
      st''.metricStore = (initializeExperimentData
        ⟨[⟨"e", "draft", sampleVariants, sampleMetrics⟩], [], []⟩ "e").metricStore) :=
  c6_create_initializes_counters emptyState "e" sampleVariants sampleMetrics _ rfl
    (by simp [createExperiment, validateExperimentData, sampleVariants, sampleMetrics,
      totalWeight, emptyState]; norm_num)

/-- C7 counterexample: the claim says complete on a draft experiment fails
with InvalidStateError and leaves the status unchanged. On the draft
sample experiment, complete_experiment succeeds and the stored status
becomes completed: the code runs an unconditional UPDATE with no state
check. -/
theorem c7_counterexample :
    ∃ st', completeExperiment ⟨[draftExperimentRow], [], []⟩ "e" = Except.ok st' ∧
      getExperiment st' "e" = some ⟨"e", "completed", sampleVariants, sampleMetrics⟩ :=
  ⟨_, rfl, rfl⟩

/-- C7 amended: complete_experiment succeeds from every state — in
particular from draft, completed and cancelled — and unconditionally sets
the stored status of the matching experiment to completed. -/
theorem c7_complete_unconditional (st : ServiceState) (eid : String) (r : ExperimentRow)
    (hr : r ∈ st.experiments) (hid : r.id = eid)
    (hst : r.status = "draft" ∨ r.status = "completed" ∨ r.status = "cancelled") :
    ∃ st', completeExperiment st eid = Except.ok st' ∧
      { r with status := "completed" } ∈ st'.experiments := by
  refine ⟨_, rfl, ?_⟩
  have h1 := List.mem_map_of_mem
    (fun x => if x.id == eid then { x with status := "completed" } else x) hr
  simpa [hid] using h1

/-- Witness for C7: completing the draft sample experiment. -/
theorem c7_complete_unconditional_witness :
    ∃ st', completeExperiment ⟨[draftExperimentRow], [], []⟩ "e" = Except.ok st' ∧
      { draftExperimentRow with status := "completed" } ∈ st'.experiments :=
  c7_complete_unconditional ⟨[draftExperimentRow], [], []⟩ "e" draftExperimentRow
    (by simp) rfl (Or.inl rfl)

end ABTesting
